import Mathlib

/-!
Shallow embedding of the kzg-rs byte-container and constants layer
(src/dtypes.rs and src/consts.rs), with the scalar decoder and the
evaluation-domain construction modelled from the specification where the
corresponding source files are not part of the provided sources.

Bytes are modelled as natural numbers (a slice of bytes is a `List Nat`),
machine-integer limbs as natural numbers, and fallible operations return
`Except KzgError`.
-/

/-- Modelled from the spec: the error taxonomy of §7 (the `KzgError` enum of
`enums.rs` is not among the provided sources; `dtypes.rs` uses its
`InvalidBytesLength` variant with a string payload, and the spec lists the
four variants). -/
inductive KzgError where
  | InvalidBytesLength : String → KzgError
  | BadArgs : String → KzgError
  | InvalidTrustedSetup : String → KzgError
  | Unexpected : String → KzgError
deriving Repr, DecidableEq

/-! ## Constants from src/consts.rs -/

def BYTES_PER_G1_POINT : Nat := 48

def BYTES_PER_G2_POINT : Nat := 96

def BYTES_PER_FIELD_ELEMENT : Nat := 32

def NUM_G1_POINTS : Nat := 4096

def NUM_G2_POINTS : Nat := 65

def NUM_ROOTS_OF_UNITY : Nat := 4096

def NUM_FIELD_ELEMENTS_PER_BLOB : Nat := 4096

def BYTES_PER_BLOB : Nat := NUM_FIELD_ELEMENTS_PER_BLOB * BYTES_PER_FIELD_ELEMENT

def BYTES_PER_COMMITMENT : Nat := 48

def BYTES_PER_PROOF : Nat := 48

def DOMAIN_STR_LENGTH : Nat := 16

def CHALLENGE_INPUT_SIZE : Nat :=
  DOMAIN_STR_LENGTH + 16 + BYTES_PER_BLOB + BYTES_PER_COMMITMENT

def FIAT_SHAMIR_PROTOCOL_DOMAIN : String := "FSBLOBVERIFY_V1_"

def RANDOM_CHALLENGE_KZG_BATCH_DOMAIN : String := "RCKZGBATCH___V1_"

/-- The table of 2^k-th roots of unity from src/consts.rs, each entry given
as four little-endian 64-bit limbs. -/
def SCALE2_ROOT_OF_UNITY : List (List Nat) := [
  [0x0000000000000001, 0x0000000000000000, 0x0000000000000000, 0x0000000000000000],
  [0xffffffff00000000, 0x53bda402fffe5bfe, 0x3339d80809a1d805, 0x73eda753299d7d48],
  [0x0001000000000000, 0xec03000276030000, 0x8d51ccce760304d0, 0x0000000000000000],
  [0x7228fd3397743f7a, 0xb38b21c28713b700, 0x8c0625cd70d77ce2, 0x345766f603fa66e7],
  [0x53ea61d87742bcce, 0x17beb312f20b6f76, 0xdd1c0af834cec32c, 0x20b1ce9140267af9],
  [0x360c60997369df4e, 0xbf6e88fb4c38fb8a, 0xb4bcd40e22f55448, 0x50e0903a157988ba],
  [0x8140d032f0a9ee53, 0x2d967f4be2f95155, 0x14a1e27164d8fdbd, 0x45af6345ec055e4d],
  [0x5130c2c1660125be, 0x98d0caac87f5713c, 0xb7c68b4d7fdd60d0, 0x6898111413588742],
  [0x4935bd2f817f694b, 0x0a0865a899e8deff, 0x6b368121ac0cf4ad, 0x4f9b4098e2e9f12e],
  [0x4541b8ff2ee0434e, 0xd697168a3a6000fe, 0x39feec240d80689f, 0x095166525526a654],
  [0x3c28d666a5c2d854, 0xea437f9626fc085e, 0x8f4de02c0f776af3, 0x325db5c3debf77a1],
  [0x4a838b5d59cd79e5, 0x55ea6811be9c622d, 0x09f1ca610a08f166, 0x6d031f1b5c49c834],
  [0xe206da11a5d36306, 0x0ad1347b378fbf96, 0xfc3e8acfe0f8245f, 0x564c0a11a0f704f4],
  [0x6fdd00bfc78c8967, 0x146b58bc434906ac, 0x2ccddea2972e89ed, 0x485d512737b1da3d],
  [0x034d2ff22a5ad9e1, 0xae4622f6a9152435, 0xdc86b01c0d477fa6, 0x56624634b500a166],
  [0xfbd047e11279bb6e, 0xc8d5f51db3f32699, 0x483405417a0cbe39, 0x3291357ee558b50d],
  [0xd7118f85cd96b8ad, 0x67a665ae1fcadc91, 0x88f39a78f1aeb578, 0x2155379d12180caa],
  [0x08692405f3b70f10, 0xcd7f2bd6d0711b7d, 0x473a2eef772c33d6, 0x224262332d8acbf4],
  [0x6f421a7d8ef674fb, 0xbb97a3bf30ce40fd, 0x652f717ae1c34bb0, 0x2d3056a530794f01],
  [0x194e8c62ecb38d9d, 0xad8e16e84419c750, 0xdf625e80d0adef90, 0x520e587a724a6955],
  [0xfece7e0e39898d4b, 0x2f69e02d265e09d9, 0xa57a6e07cb98de4a, 0x03e1c54bcb947035],
  [0xcd3979122d3ea03a, 0x46b3105f04db5844, 0xc70d0874b0691d4e, 0x47c8b5817018af4f],
  [0xc6e7a6ffb08e3363, 0xe08fec7c86389bee, 0xf2d38f10fbb8d1bb, 0x0abe6a5e5abcaa32],
  [0x5616c57de0ec9eae, 0xc631ffb2585a72db, 0x5121af06a3b51e3c, 0x73560252aa0655b2],
  [0x92cf4deb77bd779c, 0x72cf6a8029b7d7bc, 0x6e0bcd91ee762730, 0x291cf6d68823e687],
  [0xce32ef844e11a51e, 0xc0ba12bb3da64ca5, 0x0454dc1edc61a1a3, 0x019fe632fd328739],
  [0x531a11a0d2d75182, 0x02c8118402867ddc, 0x116168bffbedc11d, 0x0a0a77a3b1980c0d],
  [0xe2d0a7869f0319ed, 0xb94f1101b1d7a628, 0xece8ea224f31d25d, 0x23397a9300f8f98b],
  [0xd7b688830a4f2089, 0x6558e9e3f6ac7b41, 0x99e276b571905a7d, 0x52dd465e2f094256],
  [0x474650359d8e211b, 0x84d37b826214abc6, 0x8da40c1ef2bb4598, 0x0c83ea7744bf1bee],
  [0x694341f608c9dd56, 0xed3a181fabb30adc, 0x1339a815da8b398f, 0x2c6d4e4511657e1e],
  [0x63e7cb4906ffc93f, 0xf070bb00e28a193d, 0xad1715b02e5713b5, 0x4b5371495990693f]]

/-- The scalar-field modulus q from src/consts.rs, as four little-endian
64-bit limbs. -/
def MODULUS : List Nat :=
  [0xffffffff00000001, 0x53bda402fffe5bfe, 0x3339d80809a1d805, 0x73eda753299d7d48]

/-- Value of a little-endian sequence of 64-bit limbs as a natural number. -/
def limbsToNat (limbs : List Nat) : Nat :=
  limbs.foldr (fun limb acc => acc * 2 ^ 64 + limb) 0

/-- The BLS12-381 scalar-field order q as the spec fixes it (§3). -/
def BLS_MODULUS : Nat :=
  0x73eda753299d7d483339d80809a1d80553bda402fffe5bfeffffffff00000001

/-- Value of a byte sequence read as a big-endian integer. -/
def bytesToNatBE (bytes : List Nat) : Nat :=
  bytes.foldl (fun acc b => acc * 256 + b) 0

/-! ## Typed byte containers from src/dtypes.rs

The `define_bytes_type!` macro instantiates the same wrapper for sizes 32
and 48; we embed the macro body once, parameterised by the size, and
instantiate it for `Bytes32` and `Bytes48`. A Rust `[u8; size]` value is a
byte list together with the length fact carried by the array type. -/

structure BytesFixed (size : Nat) where
  bytes : List Nat
  hlen : bytes.length = size

def BytesFixed.from_slice (size : Nat) (slice : List Nat) :
    Except KzgError (BytesFixed size) :=
  if h : slice.length = size then
    Except.ok ⟨slice, h⟩
  else
    Except.error (KzgError.InvalidBytesLength ("Invalid slice length"))

def BytesFixed.as_slice {size : Nat} (b : BytesFixed size) : List Nat :=
  b.bytes

def BytesFixed.boxed {size : Nat} (b : BytesFixed size) : List Nat :=
  b.bytes

/-- The `impl From<$name> for [u8; $size]` conversion. -/
def BytesFixed.toOwnedArray {size : Nat} (b : BytesFixed size) : List Nat :=
  b.bytes

def Bytes32 : Type := BytesFixed 32

def Bytes32.from_slice (slice : List Nat) : Except KzgError Bytes32 :=
  BytesFixed.from_slice 32 slice

def Bytes48 : Type := BytesFixed 48

def Bytes48.from_slice (slice : List Nat) : Except KzgError Bytes48 :=
  BytesFixed.from_slice 48 slice

/-- The `Blob` container: a boxed `[u8; 131072]`. -/
structure Blob where
  _inner : List Nat
  hlen : _inner.length = BYTES_PER_BLOB

def Blob.from_slice (slice : List Nat) : Except KzgError Blob :=
  if h : slice.length = BYTES_PER_BLOB then
    Except.ok ⟨slice, h⟩
  else
    Except.error (KzgError.InvalidBytesLength ("Invalid slice length"))

def Blob.as_slice (b : Blob) : List Nat :=
  b._inner

/-- The `impl From<Blob> for [u8; BYTES_PER_BLOB]` conversion. -/
def Blob.toOwnedArray (b : Blob) : List Nat :=
  b._inner

def Blob.boxed (b : Blob) : List Nat :=
  b.toOwnedArray

/-! ## Scalar decoding (modelled) and blob-to-polynomial conversion -/

/-- Modelled from the spec: `safe_scalar_affine_from_bytes` of
`kzg_proof.rs` is not among the provided sources; §4.2 says the scalar
decoder takes a 32-byte big-endian value and fails with `BadArgs` if it is
≥ q, success yielding the scalar. A scalar is modelled by its integer
value. -/
def safe_scalar_affine_from_bytes (bytes : Bytes32) : Except KzgError Nat :=
  let v := bytesToNatBE (BytesFixed.bytes bytes)
  if v < BLS_MODULUS then
    Except.ok v
  else
    Except.error (KzgError.BadArgs ("Scalar is not canonical"))

/-- `slice.chunks n` of Rust, with an explicit fuel argument so that the
recursion is structural; `chunks` instantiates the fuel with the list
length, which suffices for any chunk size ≥ 1. -/
def chunksGo (n : Nat) : Nat → List α → List (List α)
  | _, [] => []
  | 0, _ :: _ => []
  | fuel + 1, a :: l => (a :: l).take n :: chunksGo n fuel ((a :: l).drop n)

def chunks (n : Nat) (l : List α) : List (List α) :=
  chunksGo n l.length l

/-- `Iterator::collect::<Result<Vec<_>, E>>` over a mapped list: apply `f`
left to right, stopping at the first error. -/
def mapExcept (f : α → Except ε β) : List α → Except ε (List β)
  | [] => Except.ok []
  | a :: l =>
    match f a with
    | Except.error e => Except.error e
    | Except.ok b =>
      match mapExcept f l with
      | Except.error e => Except.error e
      | Except.ok bs => Except.ok (b :: bs)

/-- The closure mapped over the chunks in `Blob::as_polynomial`:
`Bytes32::from_slice(slice).and_then(|bytes| safe_scalar_affine_from_bytes(&bytes))`. -/
def scalarFromChunk (slice : List Nat) : Except KzgError Nat :=
  (Bytes32.from_slice slice).bind (fun bytes => safe_scalar_affine_from_bytes bytes)

def Blob.as_polynomial (b : Blob) : Except KzgError (List Nat) :=
  mapExcept scalarFromChunk (chunks BYTES_PER_FIELD_ELEMENT b._inner)

/-- The i-th contiguous 32-byte chunk of a blob (statement vocabulary). -/
def blobChunk (b : Blob) (i : Nat) : List Nat :=
  (b._inner.drop (BYTES_PER_FIELD_ELEMENT * i)).take BYTES_PER_FIELD_ELEMENT

/-! ## Roots of unity and the evaluation domain (modelled from the spec) -/

/-- Entry k of the roots-of-unity table, interpreted as a natural number
from its little-endian 64-bit limbs (§4.3 of the spec). -/
def rootVal (k : Nat) : Nat :=
  limbsToNat (SCALE2_ROOT_OF_UNITY.getD k [])

/-- Repeated modular squaring: `sqIter q a k` squares `a` modulo `q`, `k`
times. -/
def sqIter (q : Nat) : Nat → Nat → Nat
  | a, 0 => a
  | a, k + 1 => sqIter q (a * a % q) k

/-- `pow2mod q x k = x ^ (2 ^ k) % q`, computed by k modular squarings. -/
def pow2mod (q x : Nat) (k : Nat) : Nat :=
  sqIter q (x % q) k

/-- Modelled from the spec: the bit-reversal permutation br of §4.3
(`bit_reversal_permutation` is not among the provided sources).
`bitReverse b i` reverses the low `b` bits of `i`. -/
def bitReverse : Nat → Nat → Nat
  | 0, _ => 0
  | b + 1, i => (i % 2) * 2 ^ b + bitReverse b (i / 2)

/-- Modelled from the spec: the evaluation domain D of §4.3 (the domain
construction is not among the provided sources): D[i] = ω^br(i) mod q with
ω = SCALE2_ROOT_OF_UNITY[12] and br the 12-bit reversal. -/
def domainD (i : Nat) : Nat :=
  rootVal 12 ^ bitReverse 12 i % BLS_MODULUS

lemma sqIter_spec (q x : Nat) :
    ∀ (k e : Nat) (a : Nat), a = x ^ e % q → sqIter q a k = x ^ (e * 2 ^ k) % q := by
  intro k
  induction k with
  | zero =>
    intro e a ha
    simpa [sqIter] using ha
  | succ k ih =>
    intro e a ha
    have hstep : a * a % q = x ^ (e * 2) % q := by
      subst ha
      rw [← Nat.mul_mod, ← pow_add, mul_two]
    have h := ih (e * 2) (a * a % q) hstep
    show sqIter q (a * a % q) k = _
    rw [h]
    congr 1
    rw [pow_succ]
    ring

lemma pow2mod_spec (q x : Nat) (k : Nat) : pow2mod q x k = x ^ 2 ^ k % q := by
  have h := sqIter_spec q x k 1 (x % q) (by rw [pow_one])
  simpa [pow2mod] using h

lemma bitReverse_lt (b : Nat) : ∀ i, bitReverse b i < 2 ^ b := by
  induction b with
  | zero =>
    intro i
    simp [bitReverse]
  | succ b ih =>
    intro i
    have h2 : i % 2 ≤ 1 := Nat.le_of_lt_succ (Nat.mod_lt i (by omega))
    have hr := ih (i / 2)
    have : (i % 2) * 2 ^ b + bitReverse b (i / 2) < 2 ^ (b + 1) := by
      rw [pow_succ]
      nlinarith
    simpa [bitReverse] using this

lemma bitReverse_append (b : Nat) :
    ∀ c j, c ≤ 1 → j < 2 ^ b →
      bitReverse (b + 1) (c * 2 ^ b + j) = 2 * bitReverse b j + c := by
  induction b with
  | zero =>
    intro c j _ hj
    interval_cases j
    interval_cases c <;> simp [bitReverse]
  | succ b ih =>
    intro c j hc hj
    have hj2 : j / 2 < 2 ^ b := by
      rw [pow_succ] at hj
      omega
    have ht : c * 2 ^ (b + 1) = 2 * (c * 2 ^ b) := by ring
    have h1 : (c * 2 ^ (b + 1) + j) % 2 = j % 2 := by omega
    have h2 : (c * 2 ^ (b + 1) + j) / 2 = c * 2 ^ b + j / 2 := by omega
    have hstep : bitReverse (b + 1 + 1) (c * 2 ^ (b + 1) + j)
        = ((c * 2 ^ (b + 1) + j) % 2) * 2 ^ (b + 1)
          + bitReverse (b + 1) ((c * 2 ^ (b + 1) + j) / 2) := rfl
    have hstep2 : bitReverse (b + 1) j = (j % 2) * 2 ^ b + bitReverse b (j / 2) := rfl
    rw [hstep, h1, h2, ih c (j / 2) hc hj2, hstep2]
    ring

lemma bitReverse_involution (b : Nat) :
    ∀ i, i < 2 ^ b → bitReverse b (bitReverse b i) = i := by
  induction b with
  | zero =>
    intro i hi
    interval_cases i
    rfl
  | succ b ih =>
    intro i hi
    have h2 : i % 2 ≤ 1 := Nat.le_of_lt_succ (Nat.mod_lt i (by omega))
    have hlt : bitReverse b (i / 2) < 2 ^ b := bitReverse_lt b (i / 2)
    have hdiv : i / 2 < 2 ^ b := by
      rw [pow_succ] at hi
      omega
    have hstep : bitReverse (b + 1) i = (i % 2) * 2 ^ b + bitReverse b (i / 2) := rfl
    rw [hstep, bitReverse_append b (i % 2) (bitReverse b (i / 2)) h2 hlt, ih (i / 2) hdiv]
    omega

/-! ## The order of ω = SCALE2_ROOT_OF_UNITY[12] modulo q -/

lemma one_lt_BLS_MODULUS : 1 < BLS_MODULUS := by decide

lemma rootVal12_pow_4096 : rootVal 12 ^ 4096 % BLS_MODULUS = 1 := by
  have h : pow2mod BLS_MODULUS (rootVal 12) 12 = 1 := by decide
  rw [pow2mod_spec] at h
  simpa using h

lemma rootVal12_pow_2048 : rootVal 12 ^ 2048 % BLS_MODULUS ≠ 1 := by
  have h : pow2mod BLS_MODULUS (rootVal 12) 11 ≠ 1 := by decide
  rw [pow2mod_spec] at h
  simpa using h

lemma rootVal12_coprime : Nat.Coprime (rootVal 12) BLS_MODULUS := by decide

/-- ω as a unit of ZMod q. -/
def omegaUnit : (ZMod BLS_MODULUS)ˣ :=
  ZMod.unitOfCoprime (rootVal 12) rootVal12_coprime

lemma omegaUnit_pow_eq_one_iff (m : Nat) :
    omegaUnit ^ m = 1 ↔ rootVal 12 ^ m % BLS_MODULUS = 1 := by
  constructor
  · intro h
    have hval : ((rootVal 12 : ZMod BLS_MODULUS)) ^ m = 1 := by
      have := congrArg Units.val h
      simpa [omegaUnit, ZMod.coe_unitOfCoprime] using this
    have hcast : ((rootVal 12 ^ m : Nat) : ZMod BLS_MODULUS) = ((1 : Nat) : ZMod BLS_MODULUS) := by
      push_cast
      simpa using hval
    have hmod := (ZMod.natCast_eq_natCast_iff _ _ _).mp hcast
    have := hmod
    unfold Nat.ModEq at this
    rw [Nat.mod_eq_of_lt one_lt_BLS_MODULUS] at this
    exact this
  · intro h
    have hmod : rootVal 12 ^ m ≡ 1 [MOD BLS_MODULUS] := by
      unfold Nat.ModEq
      rw [Nat.mod_eq_of_lt one_lt_BLS_MODULUS]
      exact h
    have hcast : ((rootVal 12 ^ m : Nat) : ZMod BLS_MODULUS) = ((1 : Nat) : ZMod BLS_MODULUS) :=
      (ZMod.natCast_eq_natCast_iff _ _ _).mpr hmod
    have hval : ((rootVal 12 : ZMod BLS_MODULUS)) ^ m = 1 := by
      push_cast at hcast
      simpa using hcast
    ext
    simpa [omegaUnit, ZMod.coe_unitOfCoprime] using hval

lemma orderOf_omegaUnit : orderOf omegaUnit = 4096 := by
  have hfin : omegaUnit ^ (2 : Nat) ^ 12 = 1 := by
    rw [omegaUnit_pow_eq_one_iff]
    simpa using rootVal12_pow_4096
  have hnot : ¬ omegaUnit ^ (2 : Nat) ^ 11 = 1 := by
    rw [omegaUnit_pow_eq_one_iff]
    simpa using rootVal12_pow_2048
  have h := orderOf_eq_prime_pow (x := omegaUnit) (p := 2) (n := 11) hnot (by simpa using hfin)
  simpa using h

/-- No positive power of ω below 4096 is 1 modulo q. -/
lemma rootVal12_no_small_pow (m : Nat) (hm : 0 < m) (hm2 : m < 4096) :
    rootVal 12 ^ m % BLS_MODULUS ≠ 1 := by
  intro h
  have hu : omegaUnit ^ m = 1 := (omegaUnit_pow_eq_one_iff m).mpr h
  have hdvd : orderOf omegaUnit ∣ m := orderOf_dvd_of_pow_eq_one hu
  rw [orderOf_omegaUnit] at hdvd
  have := Nat.le_of_dvd hm hdvd
  omega

/-- Powers of ω with exponents below 4096 are pairwise distinct modulo q. -/
lemma rootVal12_pow_inj (a b : Nat) (ha : a < 4096) (hb : b < 4096)
    (h : rootVal 12 ^ a % BLS_MODULUS = rootVal 12 ^ b % BLS_MODULUS) : a = b := by
  have hmod : rootVal 12 ^ a ≡ rootVal 12 ^ b [MOD BLS_MODULUS] := h
  have hcast : ((rootVal 12 ^ a : Nat) : ZMod BLS_MODULUS) = ((rootVal 12 ^ b : Nat) : ZMod BLS_MODULUS) :=
    (ZMod.natCast_eq_natCast_iff _ _ _).mpr hmod
  have hval : ((rootVal 12 : ZMod BLS_MODULUS)) ^ a = ((rootVal 12 : ZMod BLS_MODULUS)) ^ b := by
    push_cast at hcast
    simpa using hcast
  have hu : omegaUnit ^ a = omegaUnit ^ b := by
    ext
    simpa [omegaUnit, ZMod.coe_unitOfCoprime] using hval
  have hmodeq : a ≡ b [MOD orderOf omegaUnit] := pow_eq_pow_iff_modEq.mp hu
  rw [orderOf_omegaUnit] at hmodeq
  unfold Nat.ModEq at hmodeq
  rw [Nat.mod_eq_of_lt ha, Nat.mod_eq_of_lt hb] at hmodeq
  exact hmodeq

lemma domainD_zero : domainD 0 = 1 := by
  have hbr : bitReverse 12 0 = 0 := by decide
  rw [domainD, hbr, pow_zero, Nat.mod_eq_of_lt one_lt_BLS_MODULUS]

lemma domainD_inj (i j : Nat) (hi : i < 4096) (hj : j < 4096)
    (h : domainD i = domainD j) : i = j := by
  have hbi : bitReverse 12 i < 4096 := by
    have := bitReverse_lt 12 i
    norm_num at this
    exact this
  have hbj : bitReverse 12 j < 4096 := by
    have := bitReverse_lt 12 j
    norm_num at this
    exact this
  have hbr := rootVal12_pow_inj (bitReverse 12 i) (bitReverse 12 j) hbi hbj h
  have hinv_i : bitReverse 12 (bitReverse 12 i) = i :=
    bitReverse_involution 12 i (by norm_num; exact hi)
  have hinv_j : bitReverse 12 (bitReverse 12 j) = j :=
    bitReverse_involution 12 j (by norm_num; exact hj)
  rw [← hinv_i, ← hinv_j, hbr]

lemma domainD_pow (i : Nat) : domainD i ^ 4096 % BLS_MODULUS = 1 := by
  rw [domainD, ← Nat.pow_mod, ← pow_mul, mul_comm, pow_mul, Nat.pow_mod,
    rootVal12_pow_4096, one_pow, Nat.mod_eq_of_lt one_lt_BLS_MODULUS]

/-! ## Chunking and error-collection lemmas -/

lemma chunksGo_spec {α : Type} (n : Nat) (hn : 0 < n) :
    ∀ (m fuel : Nat) (l : List α), l.length = n * m → l.length ≤ fuel →
      chunksGo n fuel l = (List.range m).map (fun i => (l.drop (n * i)).take n) := by
  intro m
  induction m with
  | zero =>
    intro fuel l hl _
    have : l = [] := List.eq_nil_of_length_eq_zero (by simpa using hl)
    subst this
    cases fuel <;> simp [chunksGo]
  | succ m ih =>
    intro fuel l hl hfuel
    have hpos : 0 < l.length := by
      rw [hl]
      exact Nat.mul_pos hn (Nat.succ_pos m)
    obtain ⟨a, l2, rfl⟩ : ∃ a l2, l = a :: l2 := by
      cases l with
      | nil => simp at hpos
      | cons a l2 => exact ⟨a, l2, rfl⟩
    obtain ⟨f, rfl⟩ : ∃ f, fuel = f + 1 := by
      cases fuel with
      | zero => omega
      | succ f => exact ⟨f, rfl⟩
    have hdroplen : ((a :: l2).drop n).length = n * m := by
      rw [List.length_drop, hl]
      rw [Nat.mul_succ]
      omega
    have hdropfuel : ((a :: l2).drop n).length ≤ f := by
      rw [List.length_drop]
      omega
    have hrec := ih f ((a :: l2).drop n) hdroplen hdropfuel
    show (a :: l2).take n :: chunksGo n f ((a :: l2).drop n) = _
    rw [hrec, List.range_succ_eq_map, List.map_cons, List.map_map]
    refine congrArg₂ List.cons (by simp) ?_
    apply List.map_congr_left
    intro i _
    show (((a :: l2).drop n).drop (n * i)).take n = ((a :: l2).drop (n * Nat.succ i)).take n
    rw [List.drop_drop]
    congr 2
    rw [Nat.mul_succ]
    omega

lemma chunks_of_exact {α : Type} (n m : Nat) (hn : 0 < n) (l : List α)
    (hl : l.length = n * m) :
    chunks n l = (List.range m).map (fun i => (l.drop (n * i)).take n) :=
  chunksGo_spec n hn m l.length l hl (Nat.le_refl _)

lemma chunk_length {α : Type} (n m i : Nat) (l : List α) (hl : l.length = n * m)
    (hi : i < m) : ((l.drop (n * i)).take n).length = n := by
  rw [List.length_take, List.length_drop, hl]
  have : n * i + n ≤ n * m := by
    calc n * i + n = n * (i + 1) := by rw [Nat.mul_succ]
    _ ≤ n * m := Nat.mul_le_mul_left n hi
  omega

/-! ## mapExcept lemmas -/

lemma mapExcept_ok_iff {α β ε : Type} (f : α → Except ε β) :
    ∀ (l : List α) (ys : List β),
      mapExcept f l = Except.ok ys ↔ List.Forall₂ (fun a b => f a = Except.ok b) l ys := by
  intro l
  induction l with
  | nil =>
    intro ys
    constructor
    · intro h
      cases h
      exact List.Forall₂.nil
    · intro h
      cases h
      rfl
  | cons a l ih =>
    intro ys
    constructor
    · intro h
      rw [mapExcept] at h
      cases hfa : f a with
      | error e =>
        rw [hfa] at h
        cases h
      | ok b =>
        rw [hfa] at h
        cases hrec : mapExcept f l with
        | error e =>
          rw [hrec] at h
          cases h
        | ok bs =>
          rw [hrec] at h
          cases h
          exact List.Forall₂.cons hfa ((ih bs).mp hrec)
    · intro h
      cases h with
      | cons hab htail =>
        rw [mapExcept, hab, (ih _).mpr htail]

lemma mapExcept_ok_all {α β ε : Type} (f : α → Except ε β) :
    ∀ (l : List α), (∃ ys, mapExcept f l = Except.ok ys) ↔ ∀ a ∈ l, ∃ b, f a = Except.ok b := by
  intro l
  induction l with
  | nil =>
    simp [mapExcept]
  | cons a l ih =>
    constructor
    · intro ⟨ys, h⟩
      rw [mapExcept] at h
      cases hfa : f a with
      | error e =>
        rw [hfa] at h
        cases h
      | ok b =>
        rw [hfa] at h
        cases hrec : mapExcept f l with
        | error e =>
          rw [hrec] at h
          cases h
        | ok bs =>
          intro x hx
          cases hx with
          | head => exact ⟨b, hfa⟩
          | tail _ hmem =>
            have := ih.mp ⟨bs, hrec⟩
            exact this x hmem
    · intro h
      obtain ⟨b, hb⟩ := h a (List.mem_cons_self a l)
      obtain ⟨bs, hbs⟩ := ih.mpr (fun x hx => h x (List.mem_cons_of_mem a hx))
      exact ⟨b :: bs, by rw [mapExcept, hb, hbs]⟩

lemma mapExcept_error_mem {α β ε : Type} (f : α → Except ε β) :
    ∀ (l : List α) (e : ε), mapExcept f l = Except.error e → ∃ a ∈ l, f a = Except.error e := by
  intro l
  induction l with
  | nil =>
    intro e h
    cases h
  | cons a l ih =>
    intro e h
    rw [mapExcept] at h
    cases hfa : f a with
    | error e2 =>
      rw [hfa] at h
      cases h
      exact ⟨a, List.mem_cons_self a l, hfa⟩
    | ok b =>
      rw [hfa] at h
      cases hrec : mapExcept f l with
      | error e2 =>
        rw [hrec] at h
        cases h
        obtain ⟨x, hx, hfx⟩ := ih e hrec
        exact ⟨x, List.mem_cons_of_mem a hx, hfx⟩
      | ok bs =>
        rw [hrec] at h
        cases h

lemma mapExcept_first_error {α β ε : Type} (f : α → Except ε β) :
    ∀ (l1 : List α) (a : α) (l2 : List α) (e : ε),
      (∀ x ∈ l1, ∃ b, f x = Except.ok b) → f a = Except.error e →
      mapExcept f (l1 ++ a :: l2) = Except.error e := by
  intro l1
  induction l1 with
  | nil =>
    intro a l2 e _ hfa
    rw [List.nil_append, mapExcept, hfa]
  | cons x l1 ih =>
    intro a l2 e hok hfa
    obtain ⟨b, hb⟩ := hok x (List.mem_cons_self x l1)
    have htail := ih a l2 e (fun y hy => hok y (List.mem_cons_of_mem x hy)) hfa
    rw [List.cons_append, mapExcept, hb, htail]

lemma mapExcept_length {α β ε : Type} (f : α → Except ε β) (l : List α) (ys : List β)
    (h : mapExcept f l = Except.ok ys) : ys.length = l.length :=
  (List.Forall₂.length_eq ((mapExcept_ok_iff f l ys).mp h)).symm

/-! ## Blob chunk helpers -/

lemma blob_length_eq (b : Blob) : b._inner.length = BYTES_PER_FIELD_ELEMENT * 4096 := by
  rw [b.hlen]
  decide

lemma blob_chunks_eq (b : Blob) :
    chunks BYTES_PER_FIELD_ELEMENT b._inner = (List.range 4096).map (blobChunk b) :=
  chunks_of_exact BYTES_PER_FIELD_ELEMENT 4096 (by decide) b._inner (blob_length_eq b)

lemma blobChunk_length (b : Blob) (i : Nat) (hi : i < 4096) :
    (blobChunk b i).length = BYTES_PER_FIELD_ELEMENT :=
  chunk_length BYTES_PER_FIELD_ELEMENT 4096 i b._inner (blob_length_eq b) hi

lemma scalarFromChunk_of_len32 (c : List Nat) (h : c.length = 32) :
    scalarFromChunk c = safe_scalar_affine_from_bytes ⟨c, h⟩ := by
  rw [scalarFromChunk, Bytes32.from_slice, BytesFixed.from_slice, dif_pos h]
  rfl

lemma scalarFromChunk_ok_of_canonical (c : List Nat) (h : c.length = 32)
    (hv : bytesToNatBE c < BLS_MODULUS) :
    scalarFromChunk c = Except.ok (bytesToNatBE c) := by
  rw [scalarFromChunk_of_len32 c h]
  simp only [safe_scalar_affine_from_bytes]
  rw [if_pos hv]

lemma scalarFromChunk_error_of_noncanonical (c : List Nat) (h : c.length = 32)
    (hv : BLS_MODULUS ≤ bytesToNatBE c) :
    scalarFromChunk c = Except.error (KzgError.BadArgs ("Scalar is not canonical")) := by
  rw [scalarFromChunk_of_len32 c h]
  simp only [safe_scalar_affine_from_bytes]
  rw [if_neg (by omega)]

lemma scalarFromChunk_error_shape (c : List Nat) (h32 : c.length = 32) (e : KzgError)
    (he : scalarFromChunk c = Except.error e) :
    e = KzgError.BadArgs ("Scalar is not canonical") := by
  rw [scalarFromChunk_of_len32 c h32] at he
  simp only [safe_scalar_affine_from_bytes] at he
  by_cases hv : bytesToNatBE c < BLS_MODULUS
  · rw [if_pos hv] at he
    cases he
  · rw [if_neg hv] at he
    cases he
    rfl

lemma mapExcept_map_range_first_error {α β ε : Type} (f : α → Except ε β) (g : Nat → α)
    (n j : Nat) (e : ε) (hj : j < n)
    (hfail : f (g j) = Except.error e)
    (hok : ∀ i, i < j → ∃ b, f (g i) = Except.ok b) :
    mapExcept f ((List.range n).map g) = Except.error e := by
  obtain ⟨k, rfl⟩ : ∃ k, n = j + (k + 1) := ⟨n - j - 1, by omega⟩
  rw [List.range_add, List.map_append, List.map_map, List.range_succ_eq_map, List.map_cons]
  have hg0 : (g ∘ fun b => j + b) 0 = g j := by
    simp
  rw [hg0]
  apply mapExcept_first_error
  · intro x hx
    obtain ⟨i, hi, rfl⟩ := List.mem_map.mp hx
    exact hok i (List.mem_range.mp hi)
  · exact hfail

/-- The all-zero blob, used as a concrete witness input. -/
def zeroBlob : Blob :=
  ⟨List.replicate BYTES_PER_BLOB 0, by rw [List.length_replicate]⟩

lemma zeroBlob_chunk (i : Nat) (hi : i < 4096) :
    blobChunk zeroBlob i = List.replicate 32 0 := by
  show ((List.replicate BYTES_PER_BLOB 0).drop (BYTES_PER_FIELD_ELEMENT * i)).take
      BYTES_PER_FIELD_ELEMENT = List.replicate 32 0
  rw [List.drop_replicate, List.take_replicate]
  congr 1
  simp only [show BYTES_PER_FIELD_ELEMENT = 32 from rfl, show BYTES_PER_BLOB = 131072 from rfl]
  omega

/-- A blob whose first 32-byte chunk is the all-0xff string, a non-canonical
scalar encoding; used as a concrete witness input. -/
def badBlob : Blob :=
  ⟨List.replicate 32 255 ++ List.replicate (BYTES_PER_BLOB - 32) 0, by
    rw [List.length_append, List.length_replicate, List.length_replicate]
    decide⟩

lemma badBlob_chunk0 : blobChunk badBlob 0 = List.replicate 32 255 := by
  show ((List.replicate 32 255 ++ List.replicate (BYTES_PER_BLOB - 32) 0).drop
      (BYTES_PER_FIELD_ELEMENT * 0)).take BYTES_PER_FIELD_ELEMENT = List.replicate 32 255
  rw [Nat.mul_zero, List.drop_zero]
  exact List.take_left' (by rw [List.length_replicate]; rfl)

lemma badBlob_chunk0_noncanonical : BLS_MODULUS ≤ bytesToNatBE (blobChunk badBlob 0) := by
  rw [badBlob_chunk0]
  decide

lemma badBlob_as_polynomial :
    badBlob.as_polynomial = Except.error (KzgError.BadArgs ("Scalar is not canonical")) := by
  rw [Blob.as_polynomial, blob_chunks_eq]
  apply mapExcept_map_range_first_error _ _ 4096 0 _ (by omega)
  · exact scalarFromChunk_error_of_noncanonical _ (blobChunk_length badBlob 0 (by omega))
      badBlob_chunk0_noncanonical
  · intro i hi
    omega

/-! ## Claim theorems -/

/-- C1: if `Blob::as_polynomial` succeeds it returns exactly 4096 scalars,
the i-th being the decoding via `safe_scalar_affine_from_bytes` of the i-th
contiguous 32-byte chunk of the blob, chunks taken in order; and it succeeds
if and only if every chunk decodes successfully. -/
theorem as_polynomial_chunks_spec (b : Blob) :
    (∀ p, b.as_polynomial = Except.ok p →
      p.length = 4096 ∧
      ∀ i, ∀ hi : i < 4096,
        safe_scalar_affine_from_bytes ⟨blobChunk b i, blobChunk_length b i hi⟩ =
          Except.ok (p.getD i 0))
    ∧ ((∃ p, b.as_polynomial = Except.ok p) ↔
        ∀ i, ∀ hi : i < 4096, ∃ s,
          safe_scalar_affine_from_bytes ⟨blobChunk b i, blobChunk_length b i hi⟩ =
            Except.ok s) := by
  constructor
  · intro p hp
    rw [Blob.as_polynomial, blob_chunks_eq] at hp
    have hf2 := (mapExcept_ok_iff scalarFromChunk _ p).mp hp
    have hlen : p.length = 4096 := by
      have h := List.Forall₂.length_eq hf2
      simpa using h.symm
    refine ⟨hlen, ?_⟩
    intro i hi
    have hL : i < ((List.range 4096).map (blobChunk b)).length := by
      simpa using hi
    have hp2 : i < p.length := by omega
    have hgot := hf2.get hL hp2
    have hg : ((List.range 4096).map (blobChunk b)).get ⟨i, hL⟩ = blobChunk b i := by
      simp
    rw [hg] at hgot
    have hval : p.getD i 0 = p.get ⟨i, hp2⟩ := by
      rw [List.getD_eq_getElem _ _ hp2, List.get_eq_getElem]
    rw [← scalarFromChunk_of_len32 (blobChunk b i) (blobChunk_length b i hi), hgot, hval]
  · rw [Blob.as_polynomial, blob_chunks_eq, mapExcept_ok_all]
    constructor
    · intro hall i hi
      obtain ⟨s, hs⟩ := hall (blobChunk b i)
        (List.mem_map.mpr ⟨i, List.mem_range.mpr hi, rfl⟩)
      refine ⟨s, ?_⟩
      rw [← scalarFromChunk_of_len32 _ (blobChunk_length b i hi)]
      exact hs
    · intro hall a ha
      obtain ⟨i, hi, rfl⟩ := List.mem_map.mp ha
      have hi4 := List.mem_range.mp hi
      obtain ⟨s, hs⟩ := hall i hi4
      refine ⟨s, ?_⟩
      rw [scalarFromChunk_of_len32 _ (blobChunk_length b i hi4)]
      exact hs

/-- Witness for C1 at the all-zero blob. -/
theorem as_polynomial_chunks_spec_witness :
    ∃ p, zeroBlob.as_polynomial = Except.ok p ∧ p.length = 4096 := by
  have h := as_polynomial_chunks_spec zeroBlob
  have hall : ∀ i, ∀ hi : i < 4096, ∃ s,
      safe_scalar_affine_from_bytes
        ⟨blobChunk zeroBlob i, blobChunk_length zeroBlob i hi⟩ = Except.ok s := by
    intro i hi
    refine ⟨bytesToNatBE (blobChunk zeroBlob i), ?_⟩
    rw [← scalarFromChunk_of_len32 _ (blobChunk_length zeroBlob i hi)]
    refine scalarFromChunk_ok_of_canonical _ (blobChunk_length zeroBlob i hi) ?_
    rw [zeroBlob_chunk i hi]
    decide
  obtain ⟨p, hp⟩ := h.2.mpr hall
  exact ⟨p, hp, (h.1 p hp).1⟩

/-- C2: a blob containing a non-canonical 32-byte chunk (big-endian value
≥ q) makes `as_polynomial` fail with the `BadArgs` error kind. -/
theorem as_polynomial_noncanonical_badargs (b : Blob) (i : Nat) (hi : i < 4096)
    (hv : BLS_MODULUS ≤ bytesToNatBE (blobChunk b i)) :
    ∃ msg, b.as_polynomial = Except.error (KzgError.BadArgs msg) := by
  cases hres : b.as_polynomial with
  | ok p =>
    exfalso
    have hok : ∃ q, mapExcept scalarFromChunk ((List.range 4096).map (blobChunk b)) =
        Except.ok q := by
      refine ⟨p, ?_⟩
      rw [← blob_chunks_eq]
      exact hres
    have hall := (mapExcept_ok_all scalarFromChunk _).mp hok
    obtain ⟨s, hs⟩ := hall (blobChunk b i)
      (List.mem_map.mpr ⟨i, List.mem_range.mpr hi, rfl⟩)
    rw [scalarFromChunk_error_of_noncanonical _ (blobChunk_length b i hi) hv] at hs
    cases hs
  | error e =>
    refine ⟨"Scalar is not canonical", ?_⟩
    have he : mapExcept scalarFromChunk ((List.range 4096).map (blobChunk b)) =
        Except.error e := by
      rw [← blob_chunks_eq]
      exact hres
    obtain ⟨a, ha, hfa⟩ := mapExcept_error_mem scalarFromChunk _ e he
    obtain ⟨i2, hi2, rfl⟩ := List.mem_map.mp ha
    have hshape := scalarFromChunk_error_shape _
      (blobChunk_length b i2 (List.mem_range.mp hi2)) e hfa
    rw [hshape]

/-- Witness for C2 at a blob whose first chunk is sixteen 0xff bytes. -/
theorem as_polynomial_noncanonical_badargs_witness :
    ∃ msg, badBlob.as_polynomial = Except.error (KzgError.BadArgs msg) :=
  as_polynomial_noncanonical_badargs badBlob 0 (by omega) badBlob_chunk0_noncanonical

/-- C8: the inner `Bytes32::from_slice` in `as_polynomial` can never fail:
every chunk has length exactly 32, `from_slice` succeeds on it, and the
mapped closure agrees with the bare scalar decoder; consequently every
error `as_polynomial` returns is produced by `safe_scalar_affine_from_bytes`
on some chunk. -/
theorem as_polynomial_inner_from_slice_infallible (b : Blob) :
    (∀ c, c ∈ chunks BYTES_PER_FIELD_ELEMENT b._inner →
      ∃ h : c.length = 32, Bytes32.from_slice c = Except.ok ⟨c, h⟩ ∧
        scalarFromChunk c = safe_scalar_affine_from_bytes ⟨c, h⟩)
    ∧ ∀ e, b.as_polynomial = Except.error e →
        ∃ i, ∃ hi : i < 4096,
          safe_scalar_affine_from_bytes ⟨blobChunk b i, blobChunk_length b i hi⟩ =
            Except.error e := by
  constructor
  · intro c hc
    rw [blob_chunks_eq] at hc
    obtain ⟨i, hi, rfl⟩ := List.mem_map.mp hc
    have h32 : (blobChunk b i).length = 32 := blobChunk_length b i (List.mem_range.mp hi)
    refine ⟨h32, ?_, scalarFromChunk_of_len32 _ h32⟩
    rw [Bytes32.from_slice, BytesFixed.from_slice, dif_pos h32]
  · intro e he
    rw [Blob.as_polynomial, blob_chunks_eq] at he
    obtain ⟨a, ha, hfa⟩ := mapExcept_error_mem scalarFromChunk _ e he
    obtain ⟨i, hi, rfl⟩ := List.mem_map.mp ha
    have hi4 := List.mem_range.mp hi
    refine ⟨i, hi4, ?_⟩
    rw [← scalarFromChunk_of_len32 _ (blobChunk_length b i hi4)]
    exact hfa

/-- Witness for C8 at the 0xff-chunk blob. -/
theorem as_polynomial_inner_from_slice_infallible_witness :
    ∃ i, ∃ hi : i < 4096,
      safe_scalar_affine_from_bytes
        ⟨blobChunk badBlob i, blobChunk_length badBlob i hi⟩ =
        Except.error (KzgError.BadArgs ("Scalar is not canonical")) :=
  (as_polynomial_inner_from_slice_infallible badBlob).2 _ badBlob_as_polynomial

/-- A blob whose chunk 0 decodes and whose chunks 1 and 2 are non-canonical;
used to witness the first-error behaviour. -/
def badBlob2 : Blob :=
  ⟨List.replicate 32 0 ++ (List.replicate 64 255 ++ List.replicate (BYTES_PER_BLOB - 96) 0), by
    rw [List.length_append, List.length_append, List.length_replicate,
      List.length_replicate, List.length_replicate]
    decide⟩

lemma badBlob2_chunk0 : blobChunk badBlob2 0 = List.replicate 32 0 := by
  show ((List.replicate 32 0 ++
      (List.replicate 64 255 ++ List.replicate (BYTES_PER_BLOB - 96) 0)).drop
      (BYTES_PER_FIELD_ELEMENT * 0)).take BYTES_PER_FIELD_ELEMENT = List.replicate 32 0
  rw [Nat.mul_zero, List.drop_zero]
  exact List.take_left' (by rw [List.length_replicate]; rfl)

lemma badBlob2_chunk1 : blobChunk badBlob2 1 = List.replicate 32 255 := by
  show ((List.replicate 32 0 ++
      (List.replicate 64 255 ++ List.replicate (BYTES_PER_BLOB - 96) 0)).drop
      (BYTES_PER_FIELD_ELEMENT * 1)).take BYTES_PER_FIELD_ELEMENT = List.replicate 32 255
  rw [Nat.mul_one, List.drop_left' (by rw [List.length_replicate]; rfl)]
  rw [List.take_append_eq_append_take, List.take_replicate, List.take_replicate]
  have h1 : BYTES_PER_FIELD_ELEMENT ⊓ 64 = 32 := by decide
  have h2 : (BYTES_PER_FIELD_ELEMENT - (List.replicate (α := Nat) 64 255).length) ⊓
      (BYTES_PER_BLOB - 96) = 0 := by
    rw [List.length_replicate]
    decide
  rw [h1, h2, List.replicate_zero, List.append_nil]

/-- C9: when several chunks fail to decode, `as_polynomial` returns the
error of the lowest-index failing chunk: if chunk j fails and all chunks
before j decode, the result is exactly chunk j's error. -/
theorem as_polynomial_first_error (b : Blob) (j : Nat) (e : KzgError) (hj : j < 4096)
    (hfail : scalarFromChunk (blobChunk b j) = Except.error e)
    (hok : ∀ i, i < j → ∃ s, scalarFromChunk (blobChunk b i) = Except.ok s) :
    b.as_polynomial = Except.error e := by
  rw [Blob.as_polynomial, blob_chunks_eq]
  exact mapExcept_map_range_first_error scalarFromChunk (blobChunk b) 4096 j e hj hfail hok

/-- Witness for C9: chunks 1 and 2 of `badBlob2` both fail, chunk 0
decodes, and the returned error is chunk 1's. -/
theorem as_polynomial_first_error_witness :
    badBlob2.as_polynomial = Except.error (KzgError.BadArgs ("Scalar is not canonical")) := by
  apply as_polynomial_first_error badBlob2 1 _ (by omega)
  · refine scalarFromChunk_error_of_noncanonical _ (blobChunk_length badBlob2 1 (by omega)) ?_
    rw [badBlob2_chunk1]
    decide
  · intro i hi
    have hi0 : i = 0 := by omega
    subst hi0
    refine ⟨bytesToNatBE (blobChunk badBlob2 0),
      scalarFromChunk_ok_of_canonical _ (blobChunk_length badBlob2 0 (by omega)) ?_⟩
    rw [badBlob2_chunk0]
    decide

/-! ## Container construction lemmas -/

lemma bytesFixed_from_slice_ok_iff (size : Nat) (s : List Nat) :
    (∃ b, BytesFixed.from_slice size s = Except.ok b ∧ BytesFixed.bytes b = s) ↔
      s.length = size := by
  constructor
  · rintro ⟨b, hb, _⟩
    by_cases h : s.length = size
    · exact h
    · rw [BytesFixed.from_slice, dif_neg h] at hb
      cases hb
  · intro h
    refine ⟨⟨s, h⟩, ?_, rfl⟩
    rw [BytesFixed.from_slice, dif_pos h]

lemma bytesFixed_from_slice_error (size : Nat) (s : List Nat) (h : s.length ≠ size) :
    BytesFixed.from_slice size s =
      Except.error (KzgError.InvalidBytesLength ("Invalid slice length")) := by
  rw [BytesFixed.from_slice, dif_neg h]

lemma blob_from_slice_ok_iff (s : List Nat) :
    (∃ b, Blob.from_slice s = Except.ok b ∧ Blob._inner b = s) ↔
      s.length = BYTES_PER_BLOB := by
  constructor
  · rintro ⟨b, hb, _⟩
    by_cases h : s.length = BYTES_PER_BLOB
    · exact h
    · rw [Blob.from_slice, dif_neg h] at hb
      cases hb
  · intro h
    refine ⟨⟨s, h⟩, ?_, rfl⟩
    rw [Blob.from_slice, dif_pos h]

lemma blob_from_slice_error (s : List Nat) (h : s.length ≠ BYTES_PER_BLOB) :
    Blob.from_slice s =
      Except.error (KzgError.InvalidBytesLength ("Invalid slice length")) := by
  rw [Blob.from_slice, dif_neg h]

/-- C3: `from_slice` succeeds exactly on slices of the declared size (32 for
Bytes32, 48 for Bytes48, 131072 for Blob), regardless of byte values, and
fails with `InvalidBytesLength` on every other length. -/
theorem from_slice_length_spec :
    (∀ s : List Nat,
      (∃ b, Bytes32.from_slice s = Except.ok b ∧ BytesFixed.bytes b = s) ↔ s.length = 32)
    ∧ (∀ s : List Nat, s.length ≠ 32 →
        Bytes32.from_slice s = Except.error (KzgError.InvalidBytesLength ("Invalid slice length")))
    ∧ (∀ s : List Nat,
      (∃ b, Bytes48.from_slice s = Except.ok b ∧ BytesFixed.bytes b = s) ↔ s.length = 48)
    ∧ (∀ s : List Nat, s.length ≠ 48 →
        Bytes48.from_slice s = Except.error (KzgError.InvalidBytesLength ("Invalid slice length")))
    ∧ (∀ s : List Nat,
      (∃ b, Blob.from_slice s = Except.ok b ∧ Blob._inner b = s) ↔ s.length = 131072)
    ∧ (∀ s : List Nat, s.length ≠ 131072 →
        Blob.from_slice s = Except.error (KzgError.InvalidBytesLength ("Invalid slice length"))) :=
  ⟨fun s => bytesFixed_from_slice_ok_iff 32 s,
   fun s h => bytesFixed_from_slice_error 32 s h,
   fun s => bytesFixed_from_slice_ok_iff 48 s,
   fun s h => bytesFixed_from_slice_error 48 s h,
   fun s => blob_from_slice_ok_iff s,
   fun s h => blob_from_slice_error s h⟩

/-- Witness for C3 at concrete slices of matching and mismatching lengths. -/
theorem from_slice_length_spec_witness :
    (∃ b, Bytes32.from_slice (List.replicate 32 7) = Except.ok b ∧
      BytesFixed.bytes b = List.replicate 32 7)
    ∧ Bytes32.from_slice [0] =
        Except.error (KzgError.InvalidBytesLength ("Invalid slice length"))
    ∧ (∃ b, Bytes48.from_slice (List.replicate 48 9) = Except.ok b ∧
      BytesFixed.bytes b = List.replicate 48 9)
    ∧ Bytes48.from_slice [] =
        Except.error (KzgError.InvalidBytesLength ("Invalid slice length"))
    ∧ (∃ b, Blob.from_slice (List.replicate 131072 255) = Except.ok b ∧
      Blob._inner b = List.replicate 131072 255)
    ∧ Blob.from_slice [1, 2, 3] =
        Except.error (KzgError.InvalidBytesLength ("Invalid slice length")) :=
  ⟨(from_slice_length_spec.1 _).mpr (by rw [List.length_replicate]),
   from_slice_length_spec.2.1 _ (by decide),
   (from_slice_length_spec.2.2.1 _).mpr (by rw [List.length_replicate]),
   from_slice_length_spec.2.2.2.1 _ (by decide),
   (from_slice_length_spec.2.2.2.2.1 _).mpr (by rw [List.length_replicate]),
   from_slice_length_spec.2.2.2.2.2 _ (by decide)⟩

/-- C7: on a slice of the declared size, construction succeeds and both
`as_slice` and the owned-array conversions (`From` impl and `boxed`) return
exactly the original bytes. -/
theorem container_roundtrip :
    (∀ s : List Nat, s.length = 32 → ∃ b, Bytes32.from_slice s = Except.ok b ∧
      BytesFixed.as_slice b = s ∧ BytesFixed.toOwnedArray b = s ∧ BytesFixed.boxed b = s)
    ∧ (∀ s : List Nat, s.length = 48 → ∃ b, Bytes48.from_slice s = Except.ok b ∧
      BytesFixed.as_slice b = s ∧ BytesFixed.toOwnedArray b = s ∧ BytesFixed.boxed b = s)
    ∧ (∀ s : List Nat, s.length = 131072 → ∃ b, Blob.from_slice s = Except.ok b ∧
      Blob.as_slice b = s ∧ Blob.toOwnedArray b = s ∧ Blob.boxed b = s) := by
  refine ⟨?_, ?_, ?_⟩
  · intro s h
    refine ⟨⟨s, h⟩, ?_, rfl, rfl, rfl⟩
    rw [Bytes32.from_slice, BytesFixed.from_slice, dif_pos h]
  · intro s h
    refine ⟨⟨s, h⟩, ?_, rfl, rfl, rfl⟩
    rw [Bytes48.from_slice, BytesFixed.from_slice, dif_pos h]
  · intro s h
    have h2 : s.length = BYTES_PER_BLOB := h
    refine ⟨⟨s, h2⟩, ?_, rfl, rfl, rfl⟩
    rw [Blob.from_slice, dif_pos h2]

/-- Witness for C7 at concrete slices. -/
theorem container_roundtrip_witness :
    (∃ b, Bytes32.from_slice (List.replicate 32 1) = Except.ok b ∧
      BytesFixed.as_slice b = List.replicate 32 1 ∧
      BytesFixed.toOwnedArray b = List.replicate 32 1 ∧
      BytesFixed.boxed b = List.replicate 32 1)
    ∧ (∃ b, Bytes48.from_slice (List.replicate 48 2) = Except.ok b ∧
      BytesFixed.as_slice b = List.replicate 48 2 ∧
      BytesFixed.toOwnedArray b = List.replicate 48 2 ∧
      BytesFixed.boxed b = List.replicate 48 2)
    ∧ (∃ b, Blob.from_slice (List.replicate 131072 3) = Except.ok b ∧
      Blob.as_slice b = List.replicate 131072 3 ∧
      Blob.toOwnedArray b = List.replicate 131072 3 ∧
      Blob.boxed b = List.replicate 131072 3) :=
  ⟨container_roundtrip.1 _ (by rw [List.length_replicate]),
   container_roundtrip.2.1 _ (by rw [List.length_replicate]),
   container_roundtrip.2.2 _ (by rw [List.length_replicate])⟩

/-- C10: every observer of the containers is a deterministic function of
the wrapped bytes: equal bytes give equal results for `as_slice`, the
owned-array conversions and `as_polynomial`, and the observers return the
wrapped bytes unchanged. -/
theorem container_ops_deterministic :
    (∀ (size : Nat) (b1 b2 : BytesFixed size), b1.bytes = b2.bytes →
      BytesFixed.as_slice b1 = BytesFixed.as_slice b2 ∧
      BytesFixed.toOwnedArray b1 = BytesFixed.toOwnedArray b2 ∧
      BytesFixed.boxed b1 = BytesFixed.boxed b2)
    ∧ (∀ b1 b2 : Blob, b1._inner = b2._inner →
      Blob.as_slice b1 = Blob.as_slice b2 ∧
      Blob.toOwnedArray b1 = Blob.toOwnedArray b2 ∧
      Blob.boxed b1 = Blob.boxed b2 ∧
      Blob.as_polynomial b1 = Blob.as_polynomial b2)
    ∧ (∀ (size : Nat) (b : BytesFixed size), BytesFixed.as_slice b = b.bytes)
    ∧ (∀ b : Blob, Blob.as_slice b = b._inner) := by
  refine ⟨?_, ?_, fun _ _ => rfl, fun _ => rfl⟩
  · intro size b1 b2 h
    cases b1 with
    | mk s1 h1 =>
      cases b2 with
      | mk s2 h2 =>
        cases h
        exact ⟨rfl, rfl, rfl⟩
  · intro b1 b2 h
    cases b1 with
    | mk s1 h1 =>
      cases b2 with
      | mk s2 h2 =>
        cases h
        exact ⟨rfl, rfl, rfl, rfl⟩

/-- Witness for C10 at two structurally equal containers. -/
theorem container_ops_deterministic_witness :
    Blob.as_slice zeroBlob = Blob.as_slice zeroBlob ∧
    Blob.as_polynomial zeroBlob = Blob.as_polynomial zeroBlob :=
  ⟨((container_ops_deterministic.2.1 zeroBlob zeroBlob rfl).1),
   ((container_ops_deterministic.2.1 zeroBlob zeroBlob rfl).2.2.2)⟩

/-- C4: every table entry k is a primitive 2^k-th root of unity mod q; in
particular ω = SCALE2_ROOT_OF_UNITY[12] has multiplicative order exactly
N = 4096, and the domain D of its bit-reversed powers satisfies D[0] = 1,
has 4096 pairwise distinct elements, and D[i]^4096 = 1 for every i. -/
theorem scale2_roots_primitive_domain :
    (∀ k, k < 32 → rootVal k ^ 2 ^ k % BLS_MODULUS = 1 ∧
      (1 ≤ k → rootVal k ^ 2 ^ (k - 1) % BLS_MODULUS ≠ 1))
    ∧ rootVal 12 ^ 4096 % BLS_MODULUS = 1
    ∧ (∀ m, 0 < m → m < 4096 → rootVal 12 ^ m % BLS_MODULUS ≠ 1)
    ∧ domainD 0 = 1
    ∧ (∀ i j, i < 4096 → j < 4096 → domainD i = domainD j → i = j)
    ∧ (∀ i, domainD i ^ 4096 % BLS_MODULUS = 1) := by
  refine ⟨?_, rootVal12_pow_4096, rootVal12_no_small_pow, domainD_zero, domainD_inj,
    domainD_pow⟩
  have H : ∀ k, k < 32 → pow2mod BLS_MODULUS (rootVal k) k = 1 ∧
      (1 ≤ k → pow2mod BLS_MODULUS (rootVal k) (k - 1) ≠ 1) := by decide
  intro k hk
  refine ⟨?_, fun h1 => ?_⟩
  · rw [← pow2mod_spec]
    exact (H k hk).1
  · rw [← pow2mod_spec]
    exact (H k hk).2 h1

/-- Witness for C4 at concrete table indices and domain indices. -/
theorem scale2_roots_primitive_domain_witness :
    (rootVal 3 ^ 2 ^ 3 % BLS_MODULUS = 1 ∧
      (1 ≤ 3 → rootVal 3 ^ 2 ^ (3 - 1) % BLS_MODULUS ≠ 1))
    ∧ rootVal 12 ^ 77 % BLS_MODULUS ≠ 1
    ∧ (domainD 5 = domainD 7 → (5 : Nat) = 7) :=
  ⟨scale2_roots_primitive_domain.1 3 (by omega),
   scale2_roots_primitive_domain.2.2.1 77 (by omega) (by omega),
   fun h => scale2_roots_primitive_domain.2.2.2.2.1 5 7 (by omega) (by omega) h⟩

/-- C5 counterexample: the 12th table entry counting from 1 (zero-based
index 11), read from its little-endian limbs, is not a primitive 4096-th
root of unity: its 2048-th power is already 1 mod q. -/
theorem scale2_index11_not_primitive_4096 :
    ¬ (rootVal 11 ^ 4096 % BLS_MODULUS = 1 ∧ rootVal 11 ^ 2048 % BLS_MODULUS ≠ 1) := by
  intro hcl
  apply hcl.2
  have h : pow2mod BLS_MODULUS (rootVal 11) 11 = 1 := by decide
  rw [pow2mod_spec] at h
  simpa using h

/-- C5 amended: the table entry with zero-based index 12 (the
log2(N)-th entry counting from zero, i.e. the 13th counting from 1),
interpreted from its little-endian limbs, is a primitive 4096-th root of
unity mod q. -/
theorem scale2_index12_primitive_4096 :
    rootVal 12 ^ 4096 % BLS_MODULUS = 1 ∧ rootVal 12 ^ 2048 % BLS_MODULUS ≠ 1 :=
  ⟨rootVal12_pow_4096, rootVal12_pow_2048⟩

/-- C6: the compile-time constants match the values the spec fixes: the
MODULUS limbs encode q, BYTES_PER_BLOB = 4096·32 = 131072,
CHALLENGE_INPUT_SIZE = 16+16+131072+48 = 131152, and both Fiat-Shamir
domain separators have byte length DOMAIN_STR_LENGTH = 16. -/
theorem consts_match_spec :
    limbsToNat MODULUS = BLS_MODULUS
    ∧ BLS_MODULUS =
        0x73eda753299d7d483339d80809a1d80553bda402fffe5bfeffffffff00000001
    ∧ BYTES_PER_BLOB = 4096 * 32
    ∧ BYTES_PER_BLOB = 131072
    ∧ CHALLENGE_INPUT_SIZE = 16 + 16 + 131072 + 48
    ∧ CHALLENGE_INPUT_SIZE = 131152
    ∧ DOMAIN_STR_LENGTH = 16
    ∧ FIAT_SHAMIR_PROTOCOL_DOMAIN = "FSBLOBVERIFY_V1_"
    ∧ FIAT_SHAMIR_PROTOCOL_DOMAIN.utf8ByteSize = DOMAIN_STR_LENGTH
    ∧ RANDOM_CHALLENGE_KZG_BATCH_DOMAIN = "RCKZGBATCH___V1_"
    ∧ RANDOM_CHALLENGE_KZG_BATCH_DOMAIN.utf8ByteSize = DOMAIN_STR_LENGTH := by
  refine ⟨by decide, by decide, by decide, by decide, by decide, by decide, by decide,
    rfl, ?_, rfl, ?_⟩
  · rfl
  · rfl
